import Mathlib

/-!
Verification development for the Netlify/Next.js edge adapter.

The embedding covers the two translation units of
`src/edge-runtime/lib/response.ts`:

* `buildResponse` — adapts a Next.js middleware result to the platform
  response, handling middleware responses, rewrites, redirects and the
  `x-middleware-next` continuation; and
* the default server handler — lazily initialises the module-scoped
  `nextHandler`/`nextConfig` caches, invokes the Next.js request handler
  once per request and converts thrown errors into a generic 500 response.

Helper functions imported from modules that are not part of the translated
source (`util.ts`, `headers.ts`, `middleware.ts`, the vendored
`HTMLRewriter`) are abstracted as parameters: theorems quantify over every
possible behaviour of those helpers, so the results do not depend on any
guess about their bodies.

JavaScript `Headers` objects are modelled as association lists of
lowercase header names; string truthiness (`if (s)`) is modelled
explicitly (`none` or the empty string are falsy).  WHATWG `URL`
resolution is modelled for the absolute, protocol-relative, root-relative,
query-only and plain-relative shapes that the adapter encounters.
-/

set_option autoImplicit false

universe u v

/-- JS `Headers`: an association list of (lowercase) header names to values. -/
abbrev HeadersT := List (String × String)

/-- `headers.get(name)`: value of the first entry with the given name. -/
def hGet : HeadersT → String → Option String
  | [], _ => none
  | p :: rest, k => if p.fst = k then some p.snd else hGet rest k

/-- `headers.has(name)`. -/
def hHas (hs : HeadersT) (k : String) : Bool := (hGet hs k).isSome

/-- `headers.set(name, value)`: replace the entry in place, or append it. -/
def hSet (hs : HeadersT) (k v : String) : HeadersT :=
  if hHas hs k then hs.map (fun p => if p.fst = k then (k, v) else p)
  else hs ++ [(k, v)]

/-- `headers.delete(name)`. -/
def hDelete (hs : HeadersT) (k : String) : HeadersT :=
  hs.filter (fun p => !(p.fst == k))

/-- JS string truthiness on an optional string: `undefined`, `null` and the
empty string are falsy. -/
def truthyO : Option String → Option String
  | none => none
  | some s => if s = "" then none else some s

/-- Minimal WHATWG `URL` model: origin (scheme plus authority), pathname and
the query/fragment suffix. -/
structure URLModel where
  origin : String
  pathname : String
  search : String
deriving Repr, DecidableEq

/-- `url.toString()`. -/
def URLModel.toStr (u : URLModel) : String := u.origin ++ u.pathname ++ u.search

/-- `s.startsWith(pre)`, computed on the underlying character lists so that
it reduces inside the kernel. -/
def startsW (s pre : String) : Bool := pre.data.isPrefixOf s.data

/-- Split a character list around the first occurrence of `sep`:
`some (before, after)` when `sep` occurs, `none` otherwise. -/
def breakOnAux (sep : List Char) : List Char → Option (List Char × List Char)
  | [] => none
  | c :: rest =>
    if sep.isPrefixOf (c :: rest) then some ([], (c :: rest).drop sep.length)
    else
      match breakOnAux sep rest with
      | some pr => some (c :: pr.fst, pr.snd)
      | none => none

/-- JS `s.includes(sub)` for non-empty `sub`. -/
def containsSub (s sub : String) : Bool := (breakOnAux sub.data s.data).isSome

/-- `s.trim()`. -/
def trimS (s : String) : String :=
  String.mk (((s.data.dropWhile Char.isWhitespace).reverse.dropWhile Char.isWhitespace).reverse)

/-- Split a path-with-query string at the first `?` or `#`. -/
def splitQuery (s : String) : String × String :=
  let path := s.data.takeWhile (fun c => c ≠ '?' ∧ c ≠ '#')
  (String.mk path, String.mk (s.data.drop path.length))

/-- Parse an absolute URL of the form `scheme://host/path?query`. -/
def parseAbsolute (s : String) : URLModel :=
  let sr :=
    match breakOnAux ("://".data) s.data with
    | some pr => (String.mk pr.fst, pr.snd)
    | none => (s, [])
  let host := sr.snd.takeWhile (fun c => c ≠ '/' ∧ c ≠ '?' ∧ c ≠ '#')
  let tail := String.mk (sr.snd.drop host.length)
  let pq :=
    if startsW tail "/" then splitQuery tail
    else ("/", tail)
  { origin := sr.fst ++ "://" ++ String.mk host, pathname := pq.fst, search := pq.snd }

/-- The scheme of a URL origin, e.g. `https` of `https://example.com`. -/
def schemeOf (u : URLModel) : String :=
  match breakOnAux ("://".data) u.origin.data with
  | some pr => String.mk pr.fst
  | none => u.origin

/-- Drop the final path segment, keeping the trailing slash. -/
def dropLastSegment (p : String) : String :=
  String.mk ((p.data.reverse.dropWhile (fun c => c ≠ '/')).reverse)

/-- `new URL(s, base)`: WHATWG resolution of `s` against an absolute base,
covering absolute, protocol-relative, root-relative, query/fragment-only and
plain relative references. -/
def resolveURL (s : String) (base : URLModel) : URLModel :=
  if s = "" then base
  else if startsW s "//" then parseAbsolute (schemeOf base ++ ":" ++ s)
  else if startsW s "http://" ∨ startsW s "https://" then parseAbsolute s
  else if startsW s "/" then
    let pq := splitQuery s
    { origin := base.origin, pathname := pq.fst, search := pq.snd }
  else if startsW s "?" ∨ startsW s "#" then
    { origin := base.origin, pathname := base.pathname, search := s }
  else
    let pq := splitQuery s
    { origin := base.origin, pathname := dropLastSegment base.pathname ++ pq.fst,
      search := pq.snd }

section ServerHandler

variable {H C E Req : Type u}

/-- The state of a Node.js server response while it is being built:
status code, accumulated body and headers. -/
structure NodeRes where
  statusCode : Nat
  body : String
  headers : HeadersT
deriving Repr, DecidableEq

/-- Result of running the Next.js request handler `nextHandler(req, res)`:
either it completes `res`, or it throws, leaving behind whatever headers it
had already written. -/
inductive NextResult where
  | ok (r : NodeRes)
  | err (headersAtThrow : HeadersT)
deriving Repr, DecidableEq

/-- The two module-scoped caches of the server handler:
`let nextHandler, nextConfig` at module top level. -/
structure ServerState (H C : Type u) where
  nextHandler : Option H
  nextConfig : Option C
deriving Repr, DecidableEq

/-- The environment the server handler runs in.

Modelled from the spec: `getRunConfig`, `getRequestHandlers`,
`setCacheControlHeaders` and `setVaryHeaders` live in helper modules that
are not part of the translated source.  Following the spec — which says the
two caches hold "a lazily-initialized request handler and resolved
configuration" and that the helpers set "cache-control/vary headers" — the
bootstrap calls are modelled as fixed values and the two helpers as
header-only transforms (they receive and return headers and cannot touch
the status code or body). -/
structure ServerEnv (H C E Req : Type u) where
  getRunConfig : C
  createHandler : H
  runNext : H → Req → NextResult
  setCacheControlHeaders : HeadersT → HeadersT
  setVaryHeaders : HeadersT → Req → Option C → HeadersT

/-- Initial module state: both caches unset. -/
def initState (H C : Type u) : ServerState H C := ⟨none, none⟩

/-- The handler the invocation actually runs: the cached one if present,
otherwise the freshly created one. -/
def resolvedHandler (env : ServerEnv H C E Req) (st : ServerState H C) : H :=
  st.nextHandler.getD env.createHandler

/-- What one invocation of the server handler produces: the new module
state, the response, how many times the Next.js handler was invoked, and
whether this invocation populated the caches. -/
structure HandleResult (H C : Type u) where
  state : ServerState H C
  res : NodeRes
  invocations : Nat
  assigned : Bool
deriving Repr, DecidableEq

/-- One invocation of the default server handler
(`export default async (request) => ...`): populate the caches when
`nextHandler` is unset, run the handler in a try/catch that converts a
throw into a 500 "Internal Server Error" response, then apply the
cache-control and vary header helpers. -/
def handleRequest (env : ServerEnv H C E Req) (st : ServerState H C) (req : Req) :
    HandleResult H C :=
  let st' :=
    if st.nextHandler.isSome then st
    else ServerState.mk (some env.createHandler) (some env.getRunConfig)
  let res1 :=
    match env.runNext (resolvedHandler env st) req with
    | NextResult.ok r => r
    | NextResult.err hs => NodeRes.mk 500 "Internal Server Error" hs
  let finalHeaders := env.setVaryHeaders (env.setCacheControlHeaders res1.headers) req st'.nextConfig
  HandleResult.mk st' (NodeRes.mk res1.statusCode res1.body finalHeaders) 1
    (!st.nextHandler.isSome)

/-- Run the server handler over a sequence of requests, recording for each
invocation whether it assigned the module caches. -/
def runServer (env : ServerEnv H C E Req) : List Req → ServerState H C → List Bool
  | [], _ => []
  | r :: rs, st =>
    let out := handleRequest env st r
    out.assigned :: runServer env rs out.state

/-- Module state after serving a sequence of requests from a fresh runtime. -/
def serverStateAfter (env : ServerEnv H C E Req) (reqs : List Req) : ServerState H C :=
  reqs.foldl (fun st r => (handleRequest env st r).state) (initState H C)

/-- Number of invocations that assigned the module caches over a run from a
fresh runtime. -/
def countAssignments (env : ServerEnv H C E Req) (reqs : List Req) : Nat :=
  (runServer env reqs (initState H C)).count true

end ServerHandler

section BuildResponse

/-- A fetch-style `Request`: URL, method, headers and body state. -/
structure RequestModel where
  url : URLModel
  method : String
  headers : HeadersT
  hasBody : Bool
  bodyUsed : Bool
deriving Repr, DecidableEq

/-- A fetch-style `Response`. -/
structure ResponseModel where
  status : Nat
  headers : HeadersT
  body : String
deriving Repr, DecidableEq

/-- The parsed `__NEXT_DATA__` payload: its `props` field, which the data
transforms act on, and the remaining fields, which `{ ...data, props }`
preserves. -/
structure NextData (α : Type u) (β : Type v) where
  props : α
  rest : β

/-- Result of `normalizeLocalePath(pathname, locales)`: the pathname with
its locale prefix removed, and the locale detected in it, if any. -/
structure LocaleResult where
  pathname : String
  detectedLocale : Option String

/-- The `i18n` block of the Next.js configuration. -/
structure I18nModel where
  locales : List String

/-- The parts of the resolved Next.js configuration the adapter reads. -/
structure NextConfigModel where
  basePath : Option String
  i18n : Option I18nModel

/-- `nextConfig?.i18n?.locales`. -/
def localesOf (cfg : Option NextConfigModel) : Option (List String) :=
  cfg.bind (fun c => c.i18n.map (fun i => i.locales))

/-- The helper functions `buildResponse` imports from modules outside the
translated source (`util.ts`, `headers.ts`) together with the JSON
parsing/serialisation the vendored rewriter branch uses.  They are
abstract: every theorem about `buildResponse` quantifies over all of their
possible behaviours.  `updateModifiedHeaders(request.headers,
response.headers)` mutates both header objects it receives, so it is
modelled as returning the pair (new request headers, new response
headers). -/
structure Helpers (α : Type u) (β : Type v) where
  updateModifiedHeaders : HeadersT → HeadersT → HeadersT × HeadersT
  relativizeURL : String → String → String
  normalizeDataUrl : String → String
  normalizeLocalePath : String → Option (List String) → LocaleResult
  rewriteDataPath : String → String → Option String → String
  parseJsonBody : String → α
  stringifyProps : α → String
  parseNextData : String → Option (NextData α β)
  stringifyNextData : NextData α β → String

/-- A `MiddlewareResponse` from the middleware helper module: the origin
response being decorated, the middleware's own headers, the `set-cookie`
value of its cookie jar (if any), the queued data transforms and element
handlers. -/
structure MWResponse (α : Type u) where
  originResponse : ResponseModel
  headers : HeadersT
  cookiesSetCookie : Option String
  dataTransforms : List (α → α)
  elementHandlers : List String

/-- `result.response` is either a plain fetch `Response` or a
`MiddlewareResponse` (as tested by `isMiddlewareResponse`). -/
inductive MWOrPlain (α : Type u) where
  | plain (r : ResponseModel)
  | mw (m : MWResponse α)

/-- `result.response` as `buildResponse` receives it: either directly a
response, or a `MiddlewareRequest` (as tested by `isMiddlewareRequest`)
whose `next()` call yields the carried response; `ownHeaders` are the
`MiddlewareRequest`'s own headers, which line 36 passes to
`updateModifiedHeaders` before the `next()` call replaces the object. -/
inductive ResultResp (α : Type u) where
  | direct (x : MWOrPlain α)
  | mwRequest (ownHeaders : HeadersT) (nextResult : MWOrPlain α)

/-- The input of one `buildResponse` invocation.  `scriptChunks` models the
text chunks the vendored `HTMLRewriter` delivers for the
`script[id="__NEXT_DATA__"]` element of the origin response body. -/
structure BuildInput (α : Type u) (β : Type v) where
  request : RequestModel
  result : ResultResp α
  scriptChunks : List String
  nextConfig : Option NextConfigModel
  requestLocale : Option String

/-- Everything `buildResponse` can return, written as the platform actions
the source takes rather than opaque responses:

* `originResp r` — `return response.originResponse` (HEAD/OPTIONS);
* `jsonResp t hs` — `return Response.json(transformed, { ...response, headers })`;
* `htmlResp content origin` — `return rewriter.transform(response.originResponse)`,
  with `content` the text the `__NEXT_DATA__` script element ends up holding;
* `skip` — the bare `return` when the rewrite target equals the request URL;
* `proxy preq res` — `return addMiddlewareHeaders(fetch(proxyRequest), res)`;
* `refetch u req res` — `return addMiddlewareHeaders(fetch(new Request(rewriteUrl, request)), res)`;
* `next res` — `return addMiddlewareHeaders(context.next(), res)`;
* `respond res` — `return res`. -/
inductive Outcome (α : Type u) where
  | originResp (r : ResponseModel)
  | jsonResp (transformed : α) (headers : HeadersT)
  | htmlResp (content : String) (origin : ResponseModel)
  | skip
  | proxy (preq : RequestModel) (res : ResponseModel)
  | refetch (u : URLModel) (req : RequestModel) (res : ResponseModel)
  | next (res : ResponseModel)
  | respond (res : ResponseModel)
deriving DecidableEq

/-- How many outbound `fetch` calls an outcome performs: the source has
exactly two `fetch` call sites, one behind `proxy` and one behind
`refetch`. -/
def outboundFetchCount {α : Type u} : Outcome α → Nat
  | Outcome.proxy _ _ => 1
  | Outcome.refetch _ _ _ => 1
  | _ => 0

/-- The response carried by the `next`/`respond` outcomes of the
non-middleware path. -/
def outcomeRes {α : Type u} : Outcome α → Option ResponseModel
  | Outcome.next r => some r
  | Outcome.respond r => some r
  | _ => none

/-- Lines 36–41: `updateModifiedHeaders(request.headers, result.response.headers)`
— which may mutate the request headers as well as the response headers —
followed by replacing a returned `MiddlewareRequest` by its `next()`
result.  Returns the request headers as they stand afterwards together
with the response `buildResponse` continues with. -/
def afterMwStep {α : Type u} {β : Type v} (Hp : Helpers α β) (inp : BuildInput α β) :
    HeadersT × MWOrPlain α :=
  match inp.result with
  | ResultResp.direct (MWOrPlain.plain r) =>
      let pr := Hp.updateModifiedHeaders inp.request.headers r.headers
      (pr.fst, MWOrPlain.plain { r with headers := pr.snd })
  | ResultResp.direct (MWOrPlain.mw m) =>
      let pr := Hp.updateModifiedHeaders inp.request.headers m.headers
      (pr.fst, MWOrPlain.mw { m with headers := pr.snd })
  | ResultResp.mwRequest hs n =>
      ((Hp.updateModifiedHeaders inp.request.headers hs).fst, n)

/-- `headers.get('content-type')?.includes('application/json')`. -/
def ctIncludesJson (hs : HeadersT) : Bool :=
  match hGet hs "content-type" with
  | some ct => containsSub ct "application/json"
  | none => false

/-- The text the `__NEXT_DATA__` script element holds after the rewriter
handler ran: every chunk is appended to the buffer and removed except the
last, which is replaced by the re-serialised data when the buffered text
parses as JSON and is left in place otherwise. -/
def nextDataScriptResult {α : Type u} {β : Type v}
    (parse : String → Option (NextData α β)) (stringify : NextData α β → String)
    (transforms : List (α → α)) (chunks : List String) : String :=
  match chunks.getLast? with
  | none => ""
  | some last =>
    match parse (trimS (String.join chunks)) with
    | some d =>
        stringify (NextData.mk (transforms.foldl (fun prev t => t prev) d.props) d.rest)
    | none => last

/-- Lines 49–56: `NextResponse` cookies are copied onto the origin
response's `set-cookie` header when the cookie jar has one. -/
def cookieFix {α : Type u} (m : MWResponse α) : ResponseModel :=
  match m.cookiesSetCookie with
  | some v => { m.originResponse with headers := hSet m.originResponse.headers "set-cookie" v }
  | none => m.originResponse

/-- Lines 43–109: the `isMiddlewareResponse` branch — HEAD/OPTIONS return
the origin response; cookies are copied over; JSON bodies have the data
transforms folded over the parsed body; otherwise the rewriter transforms
the `__NEXT_DATA__` script element. -/
def middlewareBranch {α : Type u} {β : Type v} (Hp : Helpers α β)
    (method : String) (chunks : List String) (m : MWResponse α) : Outcome α :=
  if method = "HEAD" ∨ method = "OPTIONS" then Outcome.originResp m.originResponse
  else
    let origin := cookieFix m
    if ctIncludesJson origin.headers then
      let transformed := m.dataTransforms.foldl (fun prev t => t prev) (Hp.parseJsonBody origin.body)
      let body := Hp.stringifyProps transformed
      Outcome.jsonResp transformed (hSet m.headers "content-length" (toString body.length))
    else
      let content :=
        if m.dataTransforms.length > 0 then
          nextDataScriptResult Hp.parseNextData Hp.stringifyNextData m.dataTransforms chunks
        else String.join chunks
      Outcome.htmlResp content origin

/-- Lines 118–170: the `x-middleware-rewrite` branch. -/
def rewriteBranch {α : Type u} {β : Type v} (Hp : Helpers α β) (inp : BuildInput α β)
    (res : ResponseModel) (reqHeaders1 : HeadersT) (isDataReq : Bool) (rw : String) :
    Outcome α :=
  let rewriteUrl := resolveURL rw inp.request.url
  let baseUrl := inp.request.url
  if rewriteUrl.toStr = baseUrl.toStr then Outcome.skip
  else
    let relativeUrl := Hp.relativizeURL rw inp.request.url.toStr
    let originalPath := inp.request.url.pathname
    let res1 :=
      if isDataReq then { res with headers := hSet res.headers "x-nextjs-rewrite" relativeUrl }
      else res
    if rewriteUrl.origin ≠ baseUrl.origin then
      Outcome.proxy
        (RequestModel.mk rewriteUrl inp.request.method
          (reqHeaders1.filter (fun p => !(startsW p.fst "x-nf-")))
          (inp.request.hasBody && !inp.request.bodyUsed) false)
        res1
    else
      let rewriteUrl2 :=
        if isDataReq then
          { rewriteUrl with
            pathname :=
              Hp.rewriteDataPath originalPath rewriteUrl.pathname
                (inp.nextConfig.bind (fun c => c.basePath)) }
        else rewriteUrl
      Outcome.refetch rewriteUrl2
        { inp.request with url := rewriteUrl2, headers := hSet reqHeaders1 "x-middleware-rewrite" rw }
        { res1 with headers := hSet res1.headers "x-middleware-rewrite" relativeUrl }

/-- Lines 173–188: if the response is a redirect and the request carried a
locale, splice the locale back into the redirect path (unless the redirect
is an API route).  Returns the updated response together with the value of
the local `redirect` variable. -/
def spliceLocale {α : Type u} {β : Type v} (Hp : Helpers α β) (cfg : Option NextConfigModel)
    (requestLocale : Option String) (reqUrl : URLModel) (res : ResponseModel) :
    ResponseModel × Option String :=
  let redirect0 := hGet res.headers "location"
  match truthyO redirect0, truthyO requestLocale with
  | some redirect, some lr =>
      let redirectUrl := resolveURL redirect reqUrl
      let norm := Hp.normalizeLocalePath redirectUrl.pathname (localesOf cfg)
      let locale := norm.detectedLocale.getD lr
      if locale ≠ "" ∧ ¬ startsW redirectUrl.pathname "/api/" then
        let newRedirect :=
          (URLModel.mk redirectUrl.origin ("/" ++ locale ++ norm.pathname) redirectUrl.search).toStr
        ({ res with headers := hSet res.headers "location" newRedirect }, some newRedirect)
      else (res, some redirect)
  | _, _ => (res, redirect0)

/-- Lines 202–207: delete a `x-middleware-next: 1` marker and delegate to
`context.next()`, or return the response as-is. -/
def mwNextStep {α : Type u} (res : ResponseModel) : Outcome α :=
  if hGet res.headers "x-middleware-next" = some "1" then
    Outcome.next { res with headers := hDelete res.headers "x-middleware-next" }
  else Outcome.respond res

/-- Lines 173–207: the non-rewrite tail of `buildResponse` — locale
splicing, redirect handling for data requests, and the
`x-middleware-next` continuation. -/
def redirectBranch {α : Type u} {β : Type v} (Hp : Helpers α β) (inp : BuildInput α β)
    (res : ResponseModel) (isDataReq : Bool) : Outcome α :=
  let spliced := spliceLocale Hp inp.nextConfig inp.requestLocale inp.request.url res
  let resA := spliced.fst
  let resB :=
    if isDataReq then
      match truthyO spliced.snd with
      | some r =>
          { resA with
            headers :=
              hSet (hDelete resA.headers "location") "x-nextjs-redirect"
                (Hp.relativizeURL r inp.request.url.toStr) }
      | none => resA
    else resA
  let resC :=
    if isDataReq then
      match truthyO (hGet resB.headers "x-nextjs-redirect") with
      | some nr =>
          { resB with headers := hSet resB.headers "x-nextjs-redirect" (Hp.normalizeDataUrl nr) }
      | none => resB
    else resB
  mwNextStep resC

/-- Lines 110–207: the non-middleware path of `buildResponse`.  `reqHs`
are the request headers as they stand after line 36 (possibly modified by
`updateModifiedHeaders`); lines 111, 116, 144 and 170 all read the request
headers after that point. -/
def plainBranch {α : Type u} {β : Type v} (Hp : Helpers α β) (inp : BuildInput α β)
    (reqHs : HeadersT) (res : ResponseModel) : Outcome α :=
  let reqHeaders1 := hSet reqHs "x-nf-next-middleware" "skip"
  let isDataReq := hHas reqHs "x-nextjs-data"
  match truthyO (hGet res.headers "x-middleware-rewrite") with
  | some rw => rewriteBranch Hp inp res reqHeaders1 isDataReq rw
  | none => redirectBranch Hp inp res isDataReq

/-- The whole of `buildResponse` (`src/edge-runtime/lib/response.ts`). -/
def buildResponse {α : Type u} {β : Type v} (Hp : Helpers α β) (inp : BuildInput α β) :
    Outcome α :=
  match afterMwStep Hp inp with
  | (_, MWOrPlain.mw m) => middlewareBranch Hp inp.request.method inp.scriptChunks m
  | (reqHs, MWOrPlain.plain r) => plainBranch Hp inp reqHs r

end BuildResponse

section HeaderLemmas

theorem hGet_append (hs₁ hs₂ : HeadersT) (k : String) :
    hGet (hs₁ ++ hs₂) k = ((hGet hs₁ k).orElse (fun _ => hGet hs₂ k)) := by
  induction hs₁ with
  | nil => simp [hGet]
  | cons p rest ih =>
    simp only [List.cons_append, hGet]
    split <;> simp [ih]

theorem hGet_mapSet_self (hs : HeadersT) (k v : String) (h : hHas hs k = true) :
    hGet (hs.map (fun p => if p.fst = k then (k, v) else p)) k = some v := by
  induction hs with
  | nil => simp [hHas, hGet] at h
  | cons p rest ih =>
    by_cases hp : p.fst = k
    · simp [hGet, hp]
    · simp only [List.map_cons, if_neg hp, hGet]
      exact ih (by simpa [hHas, hGet, if_neg hp] using h)

theorem hGet_mapSet_ne (hs : HeadersT) (k v k' : String) (h : k ≠ k') :
    hGet (hs.map (fun p => if p.fst = k then (k, v) else p)) k' = hGet hs k' := by
  induction hs with
  | nil => rfl
  | cons p rest ih =>
    by_cases hp : p.fst = k
    · have hp' : p.fst ≠ k' := by rw [hp]; exact h
      simp only [List.map_cons, if_pos hp, hGet]
      rw [if_neg h, if_neg hp']
      exact ih
    · simp only [List.map_cons, if_neg hp, hGet]
      split <;> simp [ih]

theorem hGet_hSet_self (hs : HeadersT) (k v : String) : hGet (hSet hs k v) k = some v := by
  unfold hSet
  split
  · exact hGet_mapSet_self hs k v (by assumption)
  · rename_i h
    rw [hGet_append]
    have hg : hGet hs k = none := by
      cases hgg : hGet hs k with
      | none => rfl
      | some x => exact absurd (by simp [hHas, hgg]) h
    simp [hg, hGet]

theorem hGet_hSet_ne (hs : HeadersT) (k v k' : String) (h : k ≠ k') :
    hGet (hSet hs k v) k' = hGet hs k' := by
  unfold hSet
  split
  · exact hGet_mapSet_ne hs k v k' h
  · rw [hGet_append]
    cases hg : hGet hs k' with
    | some x => simp [Option.orElse]
    | none => simp [Option.orElse, hGet, h]

theorem hGet_hDelete_self (hs : HeadersT) (k : String) : hGet (hDelete hs k) k = none := by
  induction hs with
  | nil => rfl
  | cons p rest ih =>
    unfold hDelete at ih ⊢
    by_cases hp : p.fst = k
    · rw [List.filter_cons_of_neg (by simp [hp])]
      exact ih
    · rw [List.filter_cons_of_pos (by simp [hp])]
      simp only [hGet, if_neg hp]
      exact ih

theorem hGet_hDelete_ne (hs : HeadersT) (k k' : String) (h : k ≠ k') :
    hGet (hDelete hs k) k' = hGet hs k' := by
  induction hs with
  | nil => rfl
  | cons p rest ih =>
    unfold hDelete at ih ⊢
    by_cases hp : p.fst = k
    · have hp' : p.fst ≠ k' := by rw [hp]; exact h
      rw [List.filter_cons_of_neg (by simp [hp])]
      rw [ih]
      simp only [hGet, if_neg hp']
    · rw [List.filter_cons_of_pos (by simp [hp])]
      simp only [hGet]
      split <;> simp [ih]

theorem filter_mapSet_nf (hs : HeadersT) (k v : String)
    (h : startsW k "x-nf-" = true) :
    (hs.map (fun p => if p.fst = k then (k, v) else p)).filter
        (fun p => !(startsW p.fst "x-nf-")) =
      hs.filter (fun p => !(startsW p.fst "x-nf-")) := by
  induction hs with
  | nil => rfl
  | cons p rest ih =>
    by_cases hp : p.fst = k
    · rw [List.map_cons, if_pos hp]
      rw [List.filter_cons_of_neg (by simp [h]), List.filter_cons_of_neg (by simp [hp, h])]
      exact ih
    · rw [List.map_cons, if_neg hp]
      rw [List.filter_cons, List.filter_cons]
      split <;> simp [ih]

/-- Setting a platform-internal (`x-nf-` prefixed) header commutes away
under the filter that strips platform-internal headers. -/
theorem filter_hSet_nf (hs : HeadersT) (k v : String)
    (h : startsW k "x-nf-" = true) :
    (hSet hs k v).filter (fun p => !(startsW p.fst "x-nf-")) =
      hs.filter (fun p => !(startsW p.fst "x-nf-")) := by
  unfold hSet
  split
  · exact filter_mapSet_nf hs k v h
  · simp [List.filter_append, List.filter, h]

end HeaderLemmas

section ServerTheorems

variable {H C E Req : Type}

theorem handleRequest_state_of_isSome (env : ServerEnv H C E Req) (st : ServerState H C)
    (req : Req) (h : st.nextHandler.isSome = true) :
    (handleRequest env st req).state = st := by
  simp [handleRequest, h]

theorem handleRequest_assigned_eq (env : ServerEnv H C E Req) (st : ServerState H C)
    (req : Req) : (handleRequest env st req).assigned = !st.nextHandler.isSome := by
  simp [handleRequest]

theorem runServer_no_assign (env : ServerEnv H C E Req) (rs : List Req)
    (st : ServerState H C) (h : st.nextHandler.isSome = true) :
    (runServer env rs st).count true = 0 := by
  induction rs generalizing st with
  | nil => rfl
  | cons r rest ih =>
    show List.count true
      ((handleRequest env st r).assigned :: runServer env rest (handleRequest env st r).state) = 0
    rw [handleRequest_state_of_isSome env st r h]
    simp only [handleRequest_assigned_eq, h, Bool.not_true]
    rw [List.count_cons]
    simp [ih st h]

theorem foldl_state_fixed (env : ServerEnv H C E Req) (rs : List Req)
    (st : ServerState H C) (h : st.nextHandler.isSome = true) :
    rs.foldl (fun st' r => (handleRequest env st' r).state) st = st := by
  induction rs generalizing st with
  | nil => rfl
  | cons r rest ih =>
    rw [List.foldl_cons, handleRequest_state_of_isSome env st r h]
    exact ih st h

/-- A concrete server environment used to witness the server theorems. -/
def envW : ServerEnv Nat Nat Nat Nat :=
  { getRunConfig := 7
    createHandler := 3
    runNext := fun _ _ => NextResult.err [("a", "b")]
    setCacheControlHeaders := fun hs => hSet hs "cache-control" "no-store"
    setVaryHeaders := fun hs _ _ => hs }

/-- Claim C1: if the Next.js request handler throws, the server handler
catches the error and produces a response with status code 500 and body
"Internal Server Error", invoking the handler exactly once (no retry and
no structured error handling). -/
theorem serverHandler_error_500 (env : ServerEnv H C E Req) (st : ServerState H C)
    (req : Req) (hs : HeadersT)
    (herr : env.runNext (resolvedHandler env st) req = NextResult.err hs) :
    (handleRequest env st req).res.statusCode = 500 ∧
      (handleRequest env st req).res.body = "Internal Server Error" ∧
      (handleRequest env st req).invocations = 1 := by
  simp [handleRequest, herr]

/-- Witness for C1 at a concrete environment and request. -/
theorem serverHandler_error_500_witness :
    envW.runNext (resolvedHandler envW (initState Nat Nat)) 0 = NextResult.err [("a", "b")] ∧
      ((handleRequest envW (initState Nat Nat) 0).res.statusCode = 500 ∧
        (handleRequest envW (initState Nat Nat) 0).res.body = "Internal Server Error" ∧
        (handleRequest envW (initState Nat Nat) 0).invocations = 1) :=
  ⟨rfl, serverHandler_error_500 envW (initState Nat Nat) 0 [("a", "b")] rfl⟩

/-- Claim C3: the module-scoped caches `nextHandler`/`nextConfig` are
assigned exactly by the invocation that finds `nextHandler` unset, are
never reassigned afterwards, and over any run from a fresh runtime at most
one invocation assigns them, leaving the state constant from the first
invocation on. -/
theorem caches_assigned_once (env : ServerEnv H C E Req) :
    (∀ (st : ServerState H C) (req : Req),
        (handleRequest env st req).assigned = true ↔ st.nextHandler = none) ∧
      (∀ (st : ServerState H C) (req : Req) (h : H), st.nextHandler = some h →
          (handleRequest env st req).state = st) ∧
      (∀ reqs : List Req, countAssignments env reqs ≤ 1) ∧
      (∀ reqs : List Req, reqs ≠ [] →
          serverStateAfter env reqs =
            ServerState.mk (some env.createHandler) (some env.getRunConfig)) := by
  refine ⟨?_, ?_, ?_, ?_⟩
  · intro st req
    rw [handleRequest_assigned_eq]
    cases hn : st.nextHandler <;> simp [hn]
  · intro st req h hsome
    exact handleRequest_state_of_isSome env st req (by simp [hsome])
  · intro reqs
    cases reqs with
    | nil => simp [countAssignments, runServer]
    | cons r rest =>
      unfold countAssignments runServer
      have hst : (handleRequest env (initState H C) r).state =
          ServerState.mk (some env.createHandler) (some env.getRunConfig) := by
        simp [handleRequest, initState]
      show List.count true
        ((handleRequest env (initState H C) r).assigned ::
          runServer env rest (handleRequest env (initState H C) r).state) ≤ 1
      rw [hst, List.count_cons]
      have := runServer_no_assign env rest
        (ServerState.mk (some env.createHandler) (some env.getRunConfig)) (by simp)
      rw [this]
      split <;> simp
  · intro reqs hne
    cases reqs with
    | nil => exact absurd rfl hne
    | cons r rest =>
      unfold serverStateAfter
      rw [List.foldl_cons]
      have hst : (handleRequest env (initState H C) r).state =
          ServerState.mk (some env.createHandler) (some env.getRunConfig) := by
        simp [handleRequest, initState]
      rw [hst]
      exact foldl_state_fixed env rest _ (by simp)

/-- Witness for C3 at a concrete environment and request sequence. -/
theorem caches_assigned_once_witness :
    (handleRequest envW (initState Nat Nat) 0).assigned = true ∧
      (handleRequest envW (ServerState.mk (some 3) (some 7)) 0).state =
        ServerState.mk (some 3) (some 7) ∧
      countAssignments envW [0, 1, 2] ≤ 1 ∧
      serverStateAfter envW [0, 1, 2] =
        ServerState.mk (some envW.createHandler) (some envW.getRunConfig) :=
  ⟨((caches_assigned_once envW).1 (initState Nat Nat) 0).mpr rfl,
    (caches_assigned_once envW).2.1 (ServerState.mk (some 3) (some 7)) 0 3 rfl,
    (caches_assigned_once envW).2.2.1 [0, 1, 2],
    (caches_assigned_once envW).2.2.2 [0, 1, 2] (by simp)⟩

end ServerTheorems

section BuildResponseLemmas

variable {α : Type u} {β : Type v}

theorem truthyO_eq_some (o : Option String) (s : String) (h : truthyO o = some s) :
    o = some s ∧ s ≠ "" := by
  cases o with
  | none => simp [truthyO] at h
  | some t =>
    have h' : (if t = "" then none else some t) = some s := h
    by_cases ht : t = ""
    · rw [if_pos ht] at h'; exact absurd h' (by simp)
    · rw [if_neg ht] at h'
      obtain rfl : t = s := by injection h'
      exact ⟨rfl, ht⟩

theorem buildResponse_plain (Hp : Helpers α β) (inp : BuildInput α β) (reqHs : HeadersT)
    (r : ResponseModel)
    (hplain : afterMwStep Hp inp = (reqHs, MWOrPlain.plain r)) :
    buildResponse Hp inp = plainBranch Hp inp reqHs r := by
  unfold buildResponse
  rw [hplain]

theorem buildResponse_mw (Hp : Helpers α β) (inp : BuildInput α β) (reqHs : HeadersT)
    (m : MWResponse α)
    (hmw : afterMwStep Hp inp = (reqHs, MWOrPlain.mw m)) :
    buildResponse Hp inp = middlewareBranch Hp inp.request.method inp.scriptChunks m := by
  unfold buildResponse
  rw [hmw]

theorem plainBranch_rewrite (Hp : Helpers α β) (inp : BuildInput α β) (reqHs : HeadersT)
    (r : ResponseModel)
    (rw' : String) (hrw : truthyO (hGet r.headers "x-middleware-rewrite") = some rw') :
    plainBranch Hp inp reqHs r =
      rewriteBranch Hp inp r (hSet reqHs "x-nf-next-middleware" "skip")
        (hHas reqHs "x-nextjs-data") rw' := by
  unfold plainBranch
  rw [hrw]

theorem plainBranch_redirect (Hp : Helpers α β) (inp : BuildInput α β) (reqHs : HeadersT)
    (r : ResponseModel)
    (hrw : truthyO (hGet r.headers "x-middleware-rewrite") = none) :
    plainBranch Hp inp reqHs r =
      redirectBranch Hp inp r (hHas reqHs "x-nextjs-data") := by
  unfold plainBranch
  rw [hrw]

theorem rewriteBranch_skip (Hp : Helpers α β) (inp : BuildInput α β) (r : ResponseModel)
    (h1 : HeadersT) (d : Bool) (rw' : String)
    (heq : (resolveURL rw' inp.request.url).toStr = inp.request.url.toStr) :
    rewriteBranch Hp inp r h1 d rw' = Outcome.skip := by
  simp only [rewriteBranch, heq, if_pos]

/-- The spliced redirect URL of lines 177–186: pathname replaced by
`/` + locale + normalized pathname, where the locale is the one detected in
the redirect path when present and the request locale otherwise. -/
def spliceTarget (Hp : Helpers α β) (cfg : Option NextConfigModel) (u : URLModel)
    (redirect lr : String) : String :=
  let redirectUrl := resolveURL redirect u
  let norm := Hp.normalizeLocalePath redirectUrl.pathname (localesOf cfg)
  (URLModel.mk redirectUrl.origin ("/" ++ norm.detectedLocale.getD lr ++ norm.pathname)
    redirectUrl.search).toStr

theorem spliceLocale_true (Hp : Helpers α β) (cfg : Option NextConfigModel)
    (rl : Option String) (u : URLModel) (res : ResponseModel) (redirect lr : String)
    (hred : truthyO (hGet res.headers "location") = some redirect)
    (hloc : truthyO rl = some lr)
    (hcond : (Hp.normalizeLocalePath (resolveURL redirect u).pathname
          (localesOf cfg)).detectedLocale.getD lr ≠ "" ∧
        ¬ startsW (resolveURL redirect u).pathname "/api/") :
    spliceLocale Hp cfg rl u res =
      ({ res with headers := hSet res.headers "location" (spliceTarget Hp cfg u redirect lr) },
        some (spliceTarget Hp cfg u redirect lr)) := by
  simp only [spliceLocale, hred, hloc]
  rw [if_pos hcond]
  rfl

theorem spliceLocale_api_skip (Hp : Helpers α β) (cfg : Option NextConfigModel)
    (rl : Option String) (u : URLModel) (res : ResponseModel) (redirect lr : String)
    (hred : truthyO (hGet res.headers "location") = some redirect)
    (hloc : truthyO rl = some lr)
    (hapi : startsW (resolveURL redirect u).pathname "/api/" = true) :
    spliceLocale Hp cfg rl u res = (res, some redirect) := by
  simp only [spliceLocale, hred, hloc]
  rw [if_neg (by simp [hapi])]

theorem spliceLocale_get_ne (Hp : Helpers α β) (cfg : Option NextConfigModel)
    (rl : Option String) (u : URLModel) (res : ResponseModel) (k : String)
    (hk : k ≠ "location") :
    hGet (spliceLocale Hp cfg rl u res).fst.headers k = hGet res.headers k := by
  rcases h1 : truthyO (hGet res.headers "location") with _ | red
  · simp [spliceLocale, h1]
  · rcases h2 : truthyO rl with _ | lr
    · simp [spliceLocale, h1, h2]
    · simp only [spliceLocale, h1, h2]
      split
      · exact hGet_hSet_ne _ _ _ _ (fun h => hk h.symm)
      · rfl

/-- With no data-request marker the non-rewrite tail is just locale
splicing followed by the `x-middleware-next` step. -/
theorem redirectBranch_false (Hp : Helpers α β) (inp : BuildInput α β) (res : ResponseModel) :
    redirectBranch Hp inp res false =
      mwNextStep (spliceLocale Hp inp.nextConfig inp.requestLocale inp.request.url res).fst := by
  rfl

theorem outboundFetchCount_mwBranch (Hp : Helpers α β) (meth : String) (chunks : List String)
    (m : MWResponse α) : outboundFetchCount (middlewareBranch Hp meth chunks m) = 0 := by
  simp only [middlewareBranch]
  split
  · rfl
  · split <;> rfl

theorem outboundFetchCount_mwNextStep (res : ResponseModel) :
    outboundFetchCount (mwNextStep (α := α) res) = 0 := by
  unfold mwNextStep
  split <;> rfl

/-- The `x-middleware-next` step always yields a `next`/`respond` outcome
whose response agrees with its input on every header other than
`x-middleware-next`. -/
theorem outcomeRes_mwNextStep (res : ResponseModel) :
    ∃ r' : ResponseModel, outcomeRes (mwNextStep (α := α) res) = some r' ∧
      ∀ k : String, k ≠ "x-middleware-next" → hGet r'.headers k = hGet res.headers k := by
  unfold mwNextStep
  split
  · exact ⟨_, rfl, fun k hk => hGet_hDelete_ne res.headers "x-middleware-next" k (fun h => hk h.symm)⟩
  · exact ⟨res, rfl, fun _ _ => rfl⟩

theorem exists_of_mwNextStep (res : ResponseModel) (P : ResponseModel → Prop)
    (h : ∀ r' : ResponseModel,
        (∀ k : String, k ≠ "x-middleware-next" → hGet r'.headers k = hGet res.headers k) → P r') :
    ∃ r' : ResponseModel, outcomeRes (mwNextStep (α := α) res) = some r' ∧ P r' := by
  obtain ⟨r', h1, h2⟩ := outcomeRes_mwNextStep (α := α) res
  exact ⟨r', h1, h r' h2⟩

theorem outboundFetchCount_redirectBranch (Hp : Helpers α β) (inp : BuildInput α β)
    (res : ResponseModel) (d : Bool) :
    outboundFetchCount (redirectBranch Hp inp res d) = 0 := by
  unfold redirectBranch
  exact outboundFetchCount_mwNextStep _

theorem outboundFetchCount_rewriteBranch_one (Hp : Helpers α β) (inp : BuildInput α β)
    (res : ResponseModel) (h1 : HeadersT) (d : Bool) (rw' : String)
    (hne : (resolveURL rw' inp.request.url).toStr ≠ inp.request.url.toStr) :
    outboundFetchCount (rewriteBranch Hp inp res h1 d rw') = 1 := by
  simp only [rewriteBranch]
  rw [if_neg hne]
  split <;> rfl

end BuildResponseLemmas

section ConcreteInstances

/-- A concrete helper instantiation used only by witnesses and
counterexamples. -/
def HW : Helpers String Unit :=
  { updateModifiedHeaders := fun rq rh => (rq, rh)
    relativizeURL := fun s _ => s
    normalizeDataUrl := fun s => s ++ "-data"
    normalizeLocalePath := fun p _ => LocaleResult.mk p none
    rewriteDataPath := fun _ n _ => n
    parseJsonBody := fun s => s
    stringifyProps := fun s => s
    parseNextData := fun s => if s = "RAW" then some (NextData.mk "P" ()) else none
    stringifyNextData := fun d => "S-" ++ d.props }

/-- A concrete request: `GET https://example.com/start`. -/
def reqW : RequestModel :=
  RequestModel.mk (URLModel.mk "https://example.com" "/start" "") "GET"
    [("accept", "text/html")] false false

/-- Build a plain-response input for `reqW` with the given response
headers. -/
def inpOf (hs : HeadersT) : BuildInput String Unit :=
  BuildInput.mk reqW (ResultResp.direct (MWOrPlain.plain (ResponseModel.mk 200 hs "body")))
    [] none none

/-- A concrete request carrying a platform-internal `x-nf-` header. -/
def reqNF : RequestModel :=
  RequestModel.mk (URLModel.mk "https://example.com" "/start" "") "GET"
    [("x-nf-deploy-id", "42"), ("accept", "text/html")] false false

/-- A cross-origin rewrite input for `reqNF`. -/
def inpNF : BuildInput String Unit :=
  BuildInput.mk reqNF
    (ResultResp.direct (MWOrPlain.plain
      (ResponseModel.mk 200 [("x-middleware-rewrite", "https://other.example/away")] "body")))
    [] none none

end ConcreteInstances

/-- Claim C2 (amended): every `buildResponse` invocation performs at most
one nested outbound fetch, and a fetch occurs only when the response is a
plain one carrying a truthy `x-middleware-rewrite` header whose target,
resolved against the request URL, differs from the request URL — whether
cross-origin (proxied) or same-origin (re-fetched).  The original claim's
restriction to cross-origin targets is refuted by
`fetch_on_same_origin_rewrite_cex`. -/
theorem at_most_one_outbound_fetch {α : Type u} {β : Type v} (Hp : Helpers α β)
    (inp : BuildInput α β) :
    outboundFetchCount (buildResponse Hp inp) ≤ 1 ∧
      (outboundFetchCount (buildResponse Hp inp) = 1 →
        ∃ (reqHs : HeadersT) (r : ResponseModel) (rw' : String),
          afterMwStep Hp inp = (reqHs, MWOrPlain.plain r) ∧
            truthyO (hGet r.headers "x-middleware-rewrite") = some rw' ∧
            (resolveURL rw' inp.request.url).toStr ≠ inp.request.url.toStr) := by
  rcases hA : afterMwStep Hp inp with ⟨reqHs, x⟩
  cases x with
  | mw m =>
    rw [buildResponse_mw Hp inp reqHs m hA, outboundFetchCount_mwBranch]
    exact ⟨by omega, fun h => absurd h (by omega)⟩
  | plain r =>
    rw [buildResponse_plain Hp inp reqHs r hA]
    cases hrw : truthyO (hGet r.headers "x-middleware-rewrite") with
    | none =>
      rw [plainBranch_redirect Hp inp reqHs r hrw, outboundFetchCount_redirectBranch]
      exact ⟨by omega, fun h => absurd h (by omega)⟩
    | some rw' =>
      rw [plainBranch_rewrite Hp inp reqHs r rw' hrw]
      by_cases heq : (resolveURL rw' inp.request.url).toStr = inp.request.url.toStr
      · rw [rewriteBranch_skip Hp inp r _ _ rw' heq]
        exact ⟨by simp [outboundFetchCount], fun h => absurd h (by simp [outboundFetchCount])⟩
      · rw [outboundFetchCount_rewriteBranch_one Hp inp r _ _ rw' heq]
        exact ⟨le_refl 1, fun _ => ⟨reqHs, r, rw', rfl, hrw, heq⟩⟩

/-- Witness for the amended C2 at a concrete same-origin rewrite input. -/
theorem at_most_one_outbound_fetch_witness :
    outboundFetchCount (buildResponse HW (inpOf [("x-middleware-rewrite", "/other")])) ≤ 1 ∧
      (outboundFetchCount (buildResponse HW (inpOf [("x-middleware-rewrite", "/other")])) = 1 →
        ∃ (reqHs : HeadersT) (r : ResponseModel) (rw' : String),
          afterMwStep HW (inpOf [("x-middleware-rewrite", "/other")]) =
              (reqHs, MWOrPlain.plain r) ∧
            truthyO (hGet r.headers "x-middleware-rewrite") = some rw' ∧
            (resolveURL rw' (inpOf [("x-middleware-rewrite", "/other")]).request.url).toStr ≠
              (inpOf [("x-middleware-rewrite", "/other")]).request.url.toStr) :=
  at_most_one_outbound_fetch HW (inpOf [("x-middleware-rewrite", "/other")])

/-- Counterexample to claim C2 as stated: a same-origin rewrite (target
`/other` on the request's own origin `https://example.com`) still performs
one outbound fetch, so fetches are not restricted to cross-origin
rewrites. -/
theorem fetch_on_same_origin_rewrite_cex :
    outboundFetchCount (buildResponse HW (inpOf [("x-middleware-rewrite", "/other")])) = 1 ∧
      (resolveURL "/other" (inpOf [("x-middleware-rewrite", "/other")]).request.url).origin =
        (inpOf [("x-middleware-rewrite", "/other")]).request.url.origin := by
  exact ⟨by decide, by decide⟩

/-- Claim C9: when the `x-middleware-rewrite` target, resolved against the
request URL, is string-equal to the request URL itself, `buildResponse`
returns no response at all (the bare `return`, modelled as
`Outcome.skip`). -/
theorem rewrite_same_url_returns_void {α : Type u} {β : Type v} (Hp : Helpers α β)
    (inp : BuildInput α β) (reqHs : HeadersT) (r : ResponseModel) (rw' : String)
    (hplain : afterMwStep Hp inp = (reqHs, MWOrPlain.plain r))
    (hrw : truthyO (hGet r.headers "x-middleware-rewrite") = some rw')
    (heq : (resolveURL rw' inp.request.url).toStr = inp.request.url.toStr) :
    buildResponse Hp inp = Outcome.skip := by
  rw [buildResponse_plain Hp inp reqHs r hplain, plainBranch_rewrite Hp inp reqHs r rw' hrw]
  exact rewriteBranch_skip Hp inp r _ _ rw' heq

/-- Witness for C9: a rewrite to the request URL itself. -/
theorem rewrite_same_url_returns_void_witness :
    afterMwStep HW (inpOf [("x-middleware-rewrite", "https://example.com/start")]) =
        (reqW.headers,
          MWOrPlain.plain (ResponseModel.mk 200 [("x-middleware-rewrite", "https://example.com/start")] "body")) ∧
      truthyO (hGet (ResponseModel.mk 200 [("x-middleware-rewrite", "https://example.com/start")] "body").headers
          "x-middleware-rewrite") = some "https://example.com/start" ∧
      (resolveURL "https://example.com/start"
          (inpOf [("x-middleware-rewrite", "https://example.com/start")]).request.url).toStr =
        (inpOf [("x-middleware-rewrite", "https://example.com/start")]).request.url.toStr ∧
      buildResponse HW (inpOf [("x-middleware-rewrite", "https://example.com/start")]) = Outcome.skip :=
  ⟨rfl, by decide, by decide,
    rewrite_same_url_returns_void HW _ _ _ "https://example.com/start" rfl (by decide) (by decide)⟩

/-- Claim C5: a same-origin rewrite whose target differs from the request
URL re-fetches the rewrite URL with the original request (same method,
request URL swapped for the rewrite target), and the response's
`x-middleware-rewrite` header is set to the rewrite target relativized
against the original request URL. -/
theorem same_origin_rewrite_refetch {α : Type u} {β : Type v} (Hp : Helpers α β)
    (inp : BuildInput α β) (reqHs : HeadersT) (r : ResponseModel) (rw' : String)
    (hplain : afterMwStep Hp inp = (reqHs, MWOrPlain.plain r))
    (hrw : truthyO (hGet r.headers "x-middleware-rewrite") = some rw')
    (hne : (resolveURL rw' inp.request.url).toStr ≠ inp.request.url.toStr)
    (horig : (resolveURL rw' inp.request.url).origin = inp.request.url.origin) :
    ∃ (u : URLModel) (rq : RequestModel) (res2 : ResponseModel),
      buildResponse Hp inp = Outcome.refetch u rq res2 ∧
        hGet res2.headers "x-middleware-rewrite" =
          some (Hp.relativizeURL rw' inp.request.url.toStr) ∧
        rq.url = u ∧ rq.method = inp.request.method ∧
        (hHas reqHs "x-nextjs-data" = false →
          u = resolveURL rw' inp.request.url) := by
  rw [buildResponse_plain Hp inp reqHs r hplain, plainBranch_rewrite Hp inp reqHs r rw' hrw]
  simp only [rewriteBranch]
  rw [if_neg hne, if_neg (by simpa using horig)]
  refine ⟨_, _, _, rfl, hGet_hSet_self _ _ _, rfl, rfl, ?_⟩
  intro hd
  simp [hd]

/-- Witness for C5 at a concrete same-origin rewrite. -/
theorem same_origin_rewrite_refetch_witness :
    truthyO (hGet (ResponseModel.mk 200 [("x-middleware-rewrite", "/other")] "body").headers
        "x-middleware-rewrite") = some "/other" ∧
      (resolveURL "/other" reqW.url).toStr ≠ reqW.url.toStr ∧
      (resolveURL "/other" reqW.url).origin = reqW.url.origin ∧
      ∃ (u : URLModel) (rq : RequestModel) (res2 : ResponseModel),
        buildResponse HW (inpOf [("x-middleware-rewrite", "/other")]) = Outcome.refetch u rq res2 ∧
          hGet res2.headers "x-middleware-rewrite" =
            some (HW.relativizeURL "/other" (inpOf [("x-middleware-rewrite", "/other")]).request.url.toStr) ∧
          rq.url = u ∧ rq.method = (inpOf [("x-middleware-rewrite", "/other")]).request.method ∧
          (hHas (inpOf [("x-middleware-rewrite", "/other")]).request.headers "x-nextjs-data" = false →
            u = resolveURL "/other" (inpOf [("x-middleware-rewrite", "/other")]).request.url) :=
  ⟨by decide, by decide, by decide,
    same_origin_rewrite_refetch HW (inpOf [("x-middleware-rewrite", "/other")]) _ _ "/other"
      rfl (by decide) (by decide) (by decide)⟩

/-- Claim C10 (amended): a cross-origin rewrite sends a proxy request that
carries no `x-nf-` header, and every other header is forwarded unchanged
from the request headers as they stand at the fetch — i.e. after
`updateModifiedHeaders` (line 36) may have applied the middleware's header
modifications (`reqHs`) — so the proxy headers are exactly those headers
with the `x-nf-` ones filtered out.  Forwarding unchanged from the
*incoming* request additionally requires `updateModifiedHeaders` to leave
the request headers alone, which the original claim wrongly took for
granted (see `request_header_mutation_cex`). -/
theorem proxy_strips_platform_headers {α : Type u} {β : Type v} (Hp : Helpers α β)
    (inp : BuildInput α β) (reqHs : HeadersT) (r : ResponseModel) (rw' : String)
    (hplain : afterMwStep Hp inp = (reqHs, MWOrPlain.plain r))
    (hrw : truthyO (hGet r.headers "x-middleware-rewrite") = some rw')
    (hne : (resolveURL rw' inp.request.url).toStr ≠ inp.request.url.toStr)
    (horig : (resolveURL rw' inp.request.url).origin ≠ inp.request.url.origin) :
    ∃ (preq : RequestModel) (res1 : ResponseModel),
      buildResponse Hp inp = Outcome.proxy preq res1 ∧
        preq.headers = reqHs.filter (fun p => !(startsW p.fst "x-nf-")) ∧
        (∀ p ∈ preq.headers, startsW p.fst "x-nf-" = false) ∧
        preq.url = resolveURL rw' inp.request.url ∧
        preq.method = inp.request.method := by
  rw [buildResponse_plain Hp inp reqHs r hplain, plainBranch_rewrite Hp inp reqHs r rw' hrw]
  simp only [rewriteBranch]
  rw [if_neg hne, if_pos horig]
  refine ⟨_, _, rfl, ?_, ?_, rfl, rfl⟩
  · exact filter_hSet_nf reqHs "x-nf-next-middleware" "skip" (by decide)
  · intro p hp
    have hpred := List.of_mem_filter hp
    simpa using hpred

/-- Witness for the amended C10 at a concrete cross-origin rewrite with an
`x-nf-` request header present (and a helper that leaves the request
headers untouched, so the filtered headers coincide with the incoming
ones). -/
theorem proxy_strips_platform_headers_witness :
    truthyO (hGet (ResponseModel.mk 200 [("x-middleware-rewrite", "https://other.example/away")] "body").headers
        "x-middleware-rewrite") = some "https://other.example/away" ∧
      (resolveURL "https://other.example/away" reqNF.url).toStr ≠ reqNF.url.toStr ∧
      (resolveURL "https://other.example/away" reqNF.url).origin ≠ reqNF.url.origin ∧
      ∃ (preq : RequestModel) (res1 : ResponseModel),
        buildResponse HW inpNF = Outcome.proxy preq res1 ∧
          preq.headers = inpNF.request.headers.filter (fun p => !(startsW p.fst "x-nf-")) ∧
          (∀ p ∈ preq.headers, startsW p.fst "x-nf-" = false) ∧
          preq.url = resolveURL "https://other.example/away" inpNF.request.url ∧
          preq.method = inpNF.request.method :=
  ⟨by decide, by decide, by decide,
    proxy_strips_platform_headers HW inpNF _ _ "https://other.example/away"
      rfl (by decide) (by decide) (by decide)⟩

/-- A helper instantiation whose `updateModifiedHeaders` rewrites a
non-platform request header — the behaviour a middleware header-override
directive triggers in the helper module. -/
def HMut : Helpers String Unit :=
  { HW with updateModifiedHeaders := fun rq rh => (hSet rq "accept" "mutated", rh) }

/-- Counterexample to claim C10 as stated: when `updateModifiedHeaders`
(line 36, helper outside the translated source, here instantiated to a
request-header-rewriting behaviour) modifies the request's `accept`
header, the cross-origin proxy request carries the modified value, not the
incoming one — so non-platform headers of the incoming request are not, in
general, forwarded unchanged.  The no-`x-nf-` part survives. -/
theorem request_header_mutation_cex :
    (∃ (preq : RequestModel) (res1 : ResponseModel),
        buildResponse HMut inpNF = Outcome.proxy preq res1 ∧
          hGet preq.headers "accept" = some "mutated") ∧
      hGet inpNF.request.headers "accept" = some "text/html" ∧
      some "mutated" ≠ some "text/html" :=
  ⟨⟨RequestModel.mk (resolveURL "https://other.example/away" reqNF.url) "GET"
      ((hSet (hSet reqNF.headers "accept" "mutated") "x-nf-next-middleware" "skip").filter
        (fun p => !(startsW p.fst "x-nf-")))
      false false,
    ResponseModel.mk 200 [("x-middleware-rewrite", "https://other.example/away")] "body",
    by decide, by decide⟩, by decide, by decide⟩

/-- A plain redirect input for `reqW` carrying a request locale. -/
def inpLoc (hs : HeadersT) : BuildInput String Unit :=
  BuildInput.mk reqW (ResultResp.direct (MWOrPlain.plain (ResponseModel.mk 307 hs "")))
    [] none (some "fr")

/-- Claim C4: for a non-rewrite redirect response with a detected request
locale (and no data-request marker, which would move the header), the
`location` header is set to the redirect URL whose pathname is
`/` + locale + normalized pathname — the locale detected in the redirect
path when present, the request locale otherwise — and the splice is
skipped (location left unchanged) when the redirect pathname starts with
`/api/`. -/
theorem redirect_locale_splice {α : Type u} {β : Type v} (Hp : Helpers α β)
    (inp : BuildInput α β) (reqHs : HeadersT) (r : ResponseModel) (redirect lr : String)
    (hplain : afterMwStep Hp inp = (reqHs, MWOrPlain.plain r))
    (hrw : truthyO (hGet r.headers "x-middleware-rewrite") = none)
    (hnd : hHas reqHs "x-nextjs-data" = false)
    (hred : truthyO (hGet r.headers "location") = some redirect)
    (hloc : truthyO inp.requestLocale = some lr) :
    (((Hp.normalizeLocalePath (resolveURL redirect inp.request.url).pathname
            (localesOf inp.nextConfig)).detectedLocale.getD lr ≠ "" ∧
        ¬ startsW (resolveURL redirect inp.request.url).pathname "/api/") →
      ∃ r' : ResponseModel, outcomeRes (buildResponse Hp inp) = some r' ∧
        hGet r'.headers "location" =
          some (spliceTarget Hp inp.nextConfig inp.request.url redirect lr)) ∧
    (startsW (resolveURL redirect inp.request.url).pathname "/api/" = true →
      ∃ r' : ResponseModel, outcomeRes (buildResponse Hp inp) = some r' ∧
        hGet r'.headers "location" = some redirect) := by
  rw [buildResponse_plain Hp inp reqHs r hplain, plainBranch_redirect Hp inp reqHs r hrw, hnd,
    redirectBranch_false]
  constructor
  · intro hcond
    rw [spliceLocale_true Hp inp.nextConfig inp.requestLocale inp.request.url r redirect lr
      hred hloc hcond]
    refine exists_of_mwNextStep _ _ (fun r' hpres => ?_)
    rw [hpres "location" (by decide)]
    exact hGet_hSet_self r.headers "location" _
  · intro hapi
    rw [spliceLocale_api_skip Hp inp.nextConfig inp.requestLocale inp.request.url r redirect lr
      hred hloc hapi]
    refine exists_of_mwNextStep _ _ (fun r' hpres => ?_)
    rw [hpres "location" (by decide)]
    exact (truthyO_eq_some _ _ hred).1

/-- Witness for C4: a redirect to `/dest` with request locale `fr` is
spliced to `/fr/dest`, and a redirect to `/api/x` is left alone. -/
theorem redirect_locale_splice_witness :
    truthyO (hGet (ResponseModel.mk 307 [("location", "/dest")] "").headers "x-middleware-rewrite") = none ∧
      hHas (inpLoc [("location", "/dest")]).request.headers "x-nextjs-data" = false ∧
      truthyO (hGet (ResponseModel.mk 307 [("location", "/dest")] "").headers "location") = some "/dest" ∧
      truthyO (inpLoc [("location", "/dest")]).requestLocale = some "fr" ∧
      ((((HW.normalizeLocalePath (resolveURL "/dest" (inpLoc [("location", "/dest")]).request.url).pathname
              (localesOf (inpLoc [("location", "/dest")]).nextConfig)).detectedLocale.getD "fr" ≠ "" ∧
          ¬ startsW (resolveURL "/dest" (inpLoc [("location", "/dest")]).request.url).pathname "/api/") →
        ∃ r' : ResponseModel, outcomeRes (buildResponse HW (inpLoc [("location", "/dest")])) = some r' ∧
          hGet r'.headers "location" =
            some (spliceTarget HW (inpLoc [("location", "/dest")]).nextConfig
              (inpLoc [("location", "/dest")]).request.url "/dest" "fr")) ∧
      (startsW (resolveURL "/dest" (inpLoc [("location", "/dest")]).request.url).pathname "/api/" = true →
        ∃ r' : ResponseModel, outcomeRes (buildResponse HW (inpLoc [("location", "/dest")])) = some r' ∧
          hGet r'.headers "location" = some "/dest")) :=
  ⟨by decide, by decide, by decide, by decide,
    redirect_locale_splice HW (inpLoc [("location", "/dest")]) _ _ "/dest" "fr"
      rfl (by decide) (by decide) (by decide) (by decide)⟩

/-- A data request: `reqW` with the `x-nextjs-data` marker. -/
def reqData : RequestModel :=
  RequestModel.mk (URLModel.mk "https://example.com" "/start" "") "GET"
    [("x-nextjs-data", "1")] false false

/-- A redirect response input for the data request `reqData`. -/
def inpData (hs : HeadersT) : BuildInput String Unit :=
  BuildInput.mk reqData (ResultResp.direct (MWOrPlain.plain (ResponseModel.mk 307 hs "")))
    [] none none

/-- Claim C6: on a data request (`x-nextjs-data` marker) whose response
redirects (after any locale splicing), the `location` header is deleted
and `x-nextjs-redirect` is set to the redirect relativized against the
request URL and then normalized as a data URL. -/
theorem data_request_redirect_header {α : Type u} {β : Type v} (Hp : Helpers α β)
    (inp : BuildInput α β) (reqHs : HeadersT) (r : ResponseModel) (red : String)
    (hplain : afterMwStep Hp inp = (reqHs, MWOrPlain.plain r))
    (hrw : truthyO (hGet r.headers "x-middleware-rewrite") = none)
    (hnd : hHas reqHs "x-nextjs-data" = true)
    (hred : truthyO (spliceLocale Hp inp.nextConfig inp.requestLocale inp.request.url r).snd =
      some red)
    (hrel : Hp.relativizeURL red inp.request.url.toStr ≠ "") :
    ∃ r' : ResponseModel, outcomeRes (buildResponse Hp inp) = some r' ∧
      hGet r'.headers "location" = none ∧
      hGet r'.headers "x-nextjs-redirect" =
        some (Hp.normalizeDataUrl (Hp.relativizeURL red inp.request.url.toStr)) := by
  rw [buildResponse_plain Hp inp reqHs r hplain, plainBranch_redirect Hp inp reqHs r hrw, hnd]
  simp only [redirectBranch, hred, if_true]
  rw [hGet_hSet_self]
  simp only [truthyO]
  rw [if_neg hrel]
  refine exists_of_mwNextStep _ _ (fun r' hpres => ?_)
  constructor
  · rw [hpres "location" (by decide),
      hGet_hSet_ne _ _ _ _ (by decide), hGet_hSet_ne _ _ _ _ (by decide), hGet_hDelete_self]
  · rw [hpres "x-nextjs-redirect" (by decide)]
    exact hGet_hSet_self _ _ _

/-- Witness for C6: a data request redirecting to `/dest`. -/
theorem data_request_redirect_header_witness :
    truthyO (hGet (ResponseModel.mk 307 [("location", "/dest")] "").headers "x-middleware-rewrite") = none ∧
      hHas (inpData [("location", "/dest")]).request.headers "x-nextjs-data" = true ∧
      truthyO (spliceLocale HW (inpData [("location", "/dest")]).nextConfig
          (inpData [("location", "/dest")]).requestLocale
          (inpData [("location", "/dest")]).request.url
          (ResponseModel.mk 307 [("location", "/dest")] "")).snd = some "/dest" ∧
      HW.relativizeURL "/dest" (inpData [("location", "/dest")]).request.url.toStr ≠ "" ∧
      ∃ r' : ResponseModel,
        outcomeRes (buildResponse HW (inpData [("location", "/dest")])) = some r' ∧
          hGet r'.headers "location" = none ∧
          hGet r'.headers "x-nextjs-redirect" =
            some (HW.normalizeDataUrl
              (HW.relativizeURL "/dest" (inpData [("location", "/dest")]).request.url.toStr)) :=
  ⟨by decide, by decide, by decide, by decide,
    data_request_redirect_header HW (inpData [("location", "/dest")]) _ _ "/dest"
      rfl (by decide) (by decide) (by decide) (by decide)⟩

/-- Claim C7: a plain response (no middleware response, no truthy rewrite,
no data-request redirect) whose `x-middleware-next` header equals `1` is
not returned itself: `buildResponse` deletes that header and delegates to
the platform's `context.next()` continuation (the `Outcome.next`
constructor, whose response headers are merged onto the continued
response by `addMiddlewareHeaders`). -/
theorem middleware_next_continuation {α : Type u} {β : Type v} (Hp : Helpers α β)
    (inp : BuildInput α β) (reqHs : HeadersT) (r : ResponseModel)
    (hplain : afterMwStep Hp inp = (reqHs, MWOrPlain.plain r))
    (hrw : truthyO (hGet r.headers "x-middleware-rewrite") = none)
    (hnd : hHas reqHs "x-nextjs-data" = false)
    (hnext : hGet r.headers "x-middleware-next" = some "1") :
    ∃ r' : ResponseModel, buildResponse Hp inp = Outcome.next r' ∧
      hGet r'.headers "x-middleware-next" = none := by
  rw [buildResponse_plain Hp inp reqHs r hplain, plainBranch_redirect Hp inp reqHs r hrw, hnd,
    redirectBranch_false]
  have hkeep : hGet (spliceLocale Hp inp.nextConfig inp.requestLocale
      inp.request.url r).fst.headers "x-middleware-next" = some "1" := by
    rw [spliceLocale_get_ne Hp _ _ _ _ _ (by decide)]
    exact hnext
  unfold mwNextStep
  rw [if_pos hkeep]
  exact ⟨_, rfl, hGet_hDelete_self _ _⟩

/-- Witness for C7: a response with only `x-middleware-next: 1`. -/
theorem middleware_next_continuation_witness :
    truthyO (hGet (ResponseModel.mk 200 [("x-middleware-next", "1")] "body").headers
        "x-middleware-rewrite") = none ∧
      hHas (inpOf [("x-middleware-next", "1")]).request.headers "x-nextjs-data" = false ∧
      hGet (ResponseModel.mk 200 [("x-middleware-next", "1")] "body").headers
        "x-middleware-next" = some "1" ∧
      ∃ r' : ResponseModel,
        buildResponse HW (inpOf [("x-middleware-next", "1")]) = Outcome.next r' ∧
          hGet r'.headers "x-middleware-next" = none :=
  ⟨by decide, by decide, by decide,
    middleware_next_continuation HW (inpOf [("x-middleware-next", "1")]) _ _
      rfl (by decide) (by decide) (by decide)⟩

/-- Claim C8 (amended): with a non-empty list of data transforms, a
middleware response to a request whose method is neither HEAD nor OPTIONS
has the transforms applied as a left-to-right fold over the page props —
over the parsed JSON body when the origin response's content-type includes
`application/json`, over the parsed `props` of the buffered
`__NEXT_DATA__` script text otherwise — re-serialized in place; when the
buffered script text fails to parse as JSON, no replacement is made (the
final chunk is left as-is).  The HEAD/OPTIONS restriction is forced by
lines 45–47, which return the untouched origin response there
(`head_request_skips_transforms_cex`). -/
theorem data_transforms_fold {α : Type u} {β : Type v} (Hp : Helpers α β)
    (inp : BuildInput α β) (reqHs : HeadersT) (m : MWResponse α)
    (hmw : afterMwStep Hp inp = (reqHs, MWOrPlain.mw m))
    (hmeth : inp.request.method ≠ "HEAD" ∧ inp.request.method ≠ "OPTIONS")
    (hntr : m.dataTransforms ≠ []) :
    (ctIncludesJson (cookieFix m).headers = true →
      buildResponse Hp inp =
        Outcome.jsonResp
          (m.dataTransforms.foldl (fun prev t => t prev) (Hp.parseJsonBody (cookieFix m).body))
          (hSet m.headers "content-length"
            (toString (Hp.stringifyProps
              (m.dataTransforms.foldl (fun prev t => t prev)
                (Hp.parseJsonBody (cookieFix m).body))).length))) ∧
    (ctIncludesJson (cookieFix m).headers = false →
      buildResponse Hp inp =
        Outcome.htmlResp
          (nextDataScriptResult Hp.parseNextData Hp.stringifyNextData m.dataTransforms
            inp.scriptChunks)
          (cookieFix m)) ∧
    (∀ (chunks : List String) (d : NextData α β), chunks ≠ [] →
        Hp.parseNextData (trimS (String.join chunks)) = some d →
        nextDataScriptResult Hp.parseNextData Hp.stringifyNextData m.dataTransforms chunks =
          Hp.stringifyNextData
            (NextData.mk (m.dataTransforms.foldl (fun prev t => t prev) d.props) d.rest)) ∧
    (∀ chunks : List String,
        Hp.parseNextData (trimS (String.join chunks)) = none →
        nextDataScriptResult Hp.parseNextData Hp.stringifyNextData m.dataTransforms chunks =
          (chunks.getLast?).getD "") := by
  have hm : ¬ (inp.request.method = "HEAD" ∨ inp.request.method = "OPTIONS") := by
    rintro (h | h)
    · exact hmeth.1 h
    · exact hmeth.2 h
  have hlen : m.dataTransforms.length > 0 := List.length_pos.mpr hntr
  refine ⟨?_, ?_, ?_, ?_⟩
  · intro hct
    rw [buildResponse_mw Hp inp reqHs m hmw]
    simp only [middlewareBranch]
    rw [if_neg hm, if_pos hct]
  · intro hct
    rw [buildResponse_mw Hp inp reqHs m hmw]
    simp only [middlewareBranch]
    rw [if_neg hm, if_neg (by simp [hct]), if_pos hlen]
  · intro chunks d hne hparse
    obtain ⟨l, hl⟩ : ∃ l, chunks.getLast? = some l := by
      cases hc : chunks.getLast? with
      | some x => exact ⟨x, rfl⟩
      | none => exact absurd (List.getLast?_eq_none_iff.mp hc) hne
    simp only [nextDataScriptResult, hl, hparse]
  · intro chunks hparse
    cases hl : chunks.getLast? with
    | none => simp [nextDataScriptResult, hl]
    | some l => simp [nextDataScriptResult, hl, hparse]

/-- A concrete middleware response with two queued data transforms. -/
def mW : MWResponse String :=
  { originResponse := ResponseModel.mk 200 [("content-type", "text/html")] "page"
    headers := [("x-custom", "1")]
    cookiesSetCookie := none
    dataTransforms := [fun s => s ++ "-a", fun s => s ++ "-b"]
    elementHandlers := [] }

/-- A middleware-response input whose `__NEXT_DATA__` script text arrives
in two chunks. -/
def inpMW : BuildInput String Unit :=
  BuildInput.mk reqW (ResultResp.direct (MWOrPlain.mw mW)) ["RA", "W"] none none

/-- Witness for C8 at a concrete middleware response. -/
theorem data_transforms_fold_witness :
    inpMW.request.method ≠ "HEAD" ∧ inpMW.request.method ≠ "OPTIONS" ∧
      mW.dataTransforms ≠ [] ∧
      ((ctIncludesJson (cookieFix mW).headers = true →
        buildResponse HW inpMW =
          Outcome.jsonResp
            (mW.dataTransforms.foldl (fun prev t => t prev) (HW.parseJsonBody (cookieFix mW).body))
            (hSet mW.headers "content-length"
              (toString (HW.stringifyProps
                (mW.dataTransforms.foldl (fun prev t => t prev)
                  (HW.parseJsonBody (cookieFix mW).body))).length))) ∧
      (ctIncludesJson (cookieFix mW).headers = false →
        buildResponse HW inpMW =
          Outcome.htmlResp
            (nextDataScriptResult HW.parseNextData HW.stringifyNextData mW.dataTransforms
              inpMW.scriptChunks)
            (cookieFix mW)) ∧
      (∀ (chunks : List String) (d : NextData String Unit), chunks ≠ [] →
          HW.parseNextData (trimS (String.join chunks)) = some d →
          nextDataScriptResult HW.parseNextData HW.stringifyNextData mW.dataTransforms chunks =
            HW.stringifyNextData
              (NextData.mk (mW.dataTransforms.foldl (fun prev t => t prev) d.props) d.rest)) ∧
      (∀ chunks : List String,
          HW.parseNextData (trimS (String.join chunks)) = none →
          nextDataScriptResult HW.parseNextData HW.stringifyNextData mW.dataTransforms chunks =
            (chunks.getLast?).getD "")) :=
  ⟨by decide, by decide, by simp [mW],
    data_transforms_fold HW inpMW _ mW rfl ⟨by decide, by decide⟩ (by simp [mW])⟩

/-- `reqW` as a HEAD request. -/
def reqHead : RequestModel :=
  RequestModel.mk (URLModel.mk "https://example.com" "/start" "") "HEAD"
    [("accept", "text/html")] false false

/-- The middleware response `mW` arriving on the HEAD request. -/
def inpMWHead : BuildInput String Unit :=
  BuildInput.mk reqHead (ResultResp.direct (MWOrPlain.mw mW)) ["RA", "W"] none none

/-- Counterexample to claim C8 as stated: on a HEAD request, a middleware
response whose list of data transforms is non-empty is returned as the
untouched origin response (lines 45–47) — no transform is applied and
nothing is re-serialized, so the transforms are not applied for *every*
middleware response with a non-empty list of data transforms. -/
theorem head_request_skips_transforms_cex :
    mW.dataTransforms ≠ [] ∧
      buildResponse HW inpMWHead = Outcome.originResp mW.originResponse :=
  ⟨by simp [mW], rfl⟩
